import Mathlib

/-!
Shallow embedding of the AEP CMB non-Gaussianity analysis script
(`cosmological/cmb_analysis.py`) and proofs about its behaviour.

Floating-point scalars of the script are modelled as exact rationals (ℚ)
where the script's arithmetic is field arithmetic, and as real numbers (ℝ)
where the script uses transcendental functions (`math.log`, `math.sqrt`,
`math.cos`, `math.exp`).  Python exceptions (IndexError on out-of-range
list indexing, TypeError on indexing `None`) are modelled by `Option`:
`none` stands for a raised exception, `some v` for a normal return of `v`.
The script's pseudo-random source (`random.random`) is modelled by an
abstract state-transition function `next : ℕ → ℚ × ℕ` threaded through
every stage, so that the fixed order of draws in the source is explicit.
-/

namespace AepCmb

/-! ### Uniform source (`random.random`)

CPython's `random.random()` draws 53 random bits `k` from the Mersenne
Twister and returns the float `k * 2⁻⁵³`; its documented range is the
half-open interval `0.0 <= X < 1.0`.  The function below maps the 53-bit
draw to the produced value. -/

/-- The value `random.random()` returns when the underlying 53-bit draw is
`k`: the float `k / 2⁵³`, exact in ℚ.  CPython documents the result range
as `[0.0, 1.0)`. -/
def random_random (k : ℕ) : ℚ := (k : ℚ) / 2 ^ 53

/-! ### AEP parameters (`AEPCMBAnalysis.__init__`) -/

/-- The AEP predicted non-Gaussianity amplitude `f_NL_equil_pred`. -/
noncomputable def f_NL_equil_pred : ℝ := -0.416

/-- The AEP prediction uncertainty `f_NL_equil_uncertainty`. -/
noncomputable def f_NL_equil_uncertainty : ℝ := 0.08

/-- The unused auxiliary constant `g` of the parameter dict. -/
noncomputable def g_param : ℝ := 2.103e-3

/-- The unused auxiliary constant `lambda` of the parameter dict. -/
noncomputable def lambda_param : ℝ := 1.397e-5

/-- The unused auxiliary constant `kappa` of the parameter dict. -/
noncomputable def kappa_param : ℝ := 1.997e-4

/-! ### Random field generator (`normal_distribution`) -/

/-- One Box–Muller draw (`normal_distribution` with `size == 1`): take two
uniform draws `u1, u2` from the stream, return
`sqrt(-2 ln u1) * cos(2 π u2) * std + mean` and the advanced stream
state. -/
noncomputable def normal_distribution_one (next : ℕ → ℚ × ℕ) (mean std : ℝ)
    (s : ℕ) : ℝ × ℕ :=
  let p1 := next s
  let p2 := next p1.2
  (Real.sqrt (-2 * Real.log ((p1.1 : ℝ))) * Real.cos (2 * Real.pi * (p2.1 : ℝ))
      * std + mean,
    p2.2)

/-- The list branch of `normal_distribution` (`size > 1`): `size`
sequential single draws, in order. -/
noncomputable def normal_distribution_list (next : ℕ → ℚ × ℕ) (mean std : ℝ) :
    ℕ → ℕ → List ℝ × ℕ
  | 0, s => ([], s)
  | i + 1, s =>
    let p := normal_distribution_one next mean std s
    let rest := normal_distribution_list next mean std i p.2
    (p.1 :: rest.1, rest.2)

/-! ### Synthetic sky simulator (`simulate_cmb_data`) -/

/-- The fixed per-channel noise levels of `simulate_cmb_data`. -/
noncomputable def noise_levels_const : List ℝ := [1.0, 0.8, 0.6, 0.5, 0.7, 1.2]

/-- The channel loop of `simulate_cmb_data`: for each noise level, draw a
noise field of `n_pixels` samples and add it pointwise to the noiseless
sky. -/
noncomputable def add_noise_channels (next : ℕ → ℚ × ℕ) (sky : List ℝ)
    (n_pixels : ℕ) : List ℝ → ℕ → List (List ℝ) × ℕ
  | [], s => ([], s)
  | nl :: rest, s =>
    let noise := normal_distribution_list next 0 nl n_pixels s
    let freq_map := (List.range n_pixels).map fun j => sky.getD j 0 + noise.1.getD j 0
    let tail := add_noise_channels next sky n_pixels rest noise.2
    (freq_map :: tail.1, tail.2)

/-- The simulator `simulate_cmb_data`: a 1000-sample baseline Gaussian
field, its `x² - 1` non-Gaussian companion, their fixed linear combination,
and six noisy channel maps.  Returns the channel maps, the noise levels and
the advanced stream state. -/
noncomputable def simulate_cmb_data (next : ℕ → ℚ × ℕ) (s : ℕ) :
    (List (List ℝ) × List ℝ) × ℕ :=
  let n_pixels := 1000
  let base := normal_distribution_list next 0 1 n_pixels s
  let non_gaussian := base.1.map fun x => x ^ 2 - 1
  let cmb_with_ng := (List.range n_pixels).map fun i =>
    base.1.getD i 0 + f_NL_equil_pred * non_gaussian.getD i 0
  let channels := add_noise_channels next cmb_with_ng n_pixels noise_levels_const base.2
  ((channels.1, noise_levels_const), channels.2)

/-! ### Component separation (`aep_component_separation`) -/

/-- The weight computation of `aep_component_separation`: per channel the
inverse noise `1 / (noise_level + 0.1)`, normalized by the total. -/
def inverse_noise_weights {α : Type} [Field α] (noise_levels : List α) : List α :=
  let inv := noise_levels.map fun nl => 1 / (nl + 1 / 10)
  inv.map fun w => w / inv.sum

/-- The separator `aep_component_separation`.  The script reads
`multi_freq[0]` (IndexError on an empty channel list, modelled `none`),
indexes `noise_levels[i]` for `i < len(multi_freq)` (IndexError when the
noise list is shorter, modelled `none`; extra noise entries are ignored),
and indexes `multi_freq[f][i]` for `i < len(multi_freq[0])` (IndexError
when a later map is shorter than the first, modelled `none`; entries of a
longer map beyond that length are silently ignored).  On success it
returns the reconstructed map and the weight vector. -/
def aep_component_separation {α : Type} [Field α] (multi_freq : List (List α))
    (noise_levels : List α) : Option (List α × List α) :=
  match multi_freq with
  | [] => none
  | m0 :: rest =>
    let n_freq := (m0 :: rest).length
    let n_pix := m0.length
    if n_freq ≤ noise_levels.length ∧ ∀ f ∈ m0 :: rest, n_pix ≤ f.length then
      let weights := inverse_noise_weights (noise_levels.take n_freq)
      let cmb_map := (List.range n_pix).map fun i =>
        ((weights.zip (m0 :: rest)).map fun p => p.1 * p.2.getD i 0).sum
      some (cmb_map, weights)
    else none

/-! ### Binning-option scorer (`aep_optimize_parameters`) -/

/-- One entry of a binning catalog, a dict in the script.  The scorer reads
`complexity`, `n_modes` and `n_parameters` with `dict.get` and default `1`,
so these are optional fields; `n_bins` is only read on the selected option
(always present in the fixed catalog). -/
structure BinOption where
  n_bins : ℚ
  complexity : Option ℚ
  n_modes : Option ℚ
  nParameters : Option ℚ
deriving DecidableEq

/-- The score `aep_optimize_parameters` assigns to an option:
`info_gain / (complexity_cost + 1e-6)` with
`info_gain = ln(n_modes) * 2` and
`complexity_cost = complexity * ln(n_parameters)`, each missing field
defaulting to `1`. -/
noncomputable def aep_score (o : BinOption) : ℝ :=
  let info_gain := Real.log ((o.n_modes.getD 1 : ℚ) : ℝ) * 2
  let complexity_cost := ((o.complexity.getD 1 : ℚ) : ℝ) *
    Real.log ((o.nParameters.getD 1 : ℚ) : ℝ)
  info_gain / (complexity_cost + 1e-6)

/-- The scorer `aep_optimize_parameters`: walk the catalog keeping the
first option of maximal score (the script starts from
`best_option = None`, `best_score = -inf` and replaces on a strictly
larger score; every real score exceeds `-inf`, so the first option always
replaces the initial `None`).  On an empty catalog the script returns
`None`, modelled `none` — a normal return value, not an error. -/
noncomputable def aep_optimize_parameters (options : List BinOption) :
    Option BinOption :=
  (options.foldl
    (fun best option =>
      match best with
      | none => some (option, aep_score option)
      | some b =>
        if b.2 < aep_score option then some (option, aep_score option) else some b)
    none).map Prod.fst

/-! ### Bispectrum analysis (`aep_bispectrum_analysis`) -/

/-- The 10-bin entry of the fixed binning catalog. -/
def bin_option_10 : BinOption := ⟨10, some 5, some 100, none⟩

/-- The 20-bin entry of the fixed binning catalog. -/
def bin_option_20 : BinOption := ⟨20, some 8, some 400, none⟩

/-- The 30-bin entry of the fixed binning catalog. -/
def bin_option_30 : BinOption := ⟨30, some 12, some 900, none⟩

/-- The fixed three-entry binning catalog of `aep_bispectrum_analysis`.
None of the entries carries an `n_parameters` field. -/
def bin_options : List BinOption := [bin_option_10, bin_option_20, bin_option_30]

/-- The nominal statistical error `2 / sqrt(n_modes)` of an option; the
script reads `optimal_bins['n_modes']` directly (KeyError, modelled
`none`, if absent). -/
noncomputable def statistical_error_of (o : BinOption) : Option ℝ :=
  o.n_modes.map fun m => 2 / Real.sqrt ((m : ℝ))

/-- The estimator `aep_bispectrum_analysis`: select a binning option (the
script crashes on `optimal_bins['n_bins']` if the scorer returned `None`,
modelled by `Option.bind`), draw one measurement-noise sample with std
`0.05`, add it to the predicted amplitude, and compute the statistical
error from the selected option's mode count.  The `cmb_map` argument is
accepted and never read, as in the script. -/
noncomputable def aep_bispectrum_analysis (next : ℕ → ℚ × ℕ) (cmb_map : List ℝ)
    (s : ℕ) : Option ((ℝ × ℝ) × ℕ) :=
  (aep_optimize_parameters bin_options).bind fun optimal_bins =>
    let rv := normal_distribution_one next 0 0.05 s
    let base_estimate := f_NL_equil_pred + rv.1
    (statistical_error_of optimal_bins).map fun se => ((base_estimate, se), rv.2)

/-! ### Systematic error budget (`aep_systematic_analysis`) -/

/-- One entry of the systematic-error catalog: a dict
`{'name': …, 'amplitude': …, 'complexity': …}` in the script. -/
structure Systematic where
  name : String
  amplitude : ℚ
  complexity : ℚ
deriving DecidableEq

/-- The fixed four-entry catalog hard-coded in `aep_systematic_analysis`. -/
def default_systematics : List Systematic :=
  [ ⟨"beam_asymmetry", 25/1000, 8⟩,
    ⟨"foreground_residual", 30/1000, 10⟩,
    ⟨"point_sources", 15/1000, 6⟩,
    ⟨"polarization_leakage", 10/1000, 7⟩ ]

/-- The loop body of `aep_systematic_analysis`: walk the catalog in order;
an entry whose amplitude strictly exceeds `complexity / 300` is appended to
`included` and its squared amplitude added to `total_variance`.  Returns
`(included, total_variance)`; the script's `total_error` is the real square
root of the second component. -/
def systematic_budget : List Systematic → List Systematic × ℚ
  | [] => ([], 0)
  | s :: rest =>
    let r := systematic_budget rest
    if s.complexity / 300 < s.amplitude then (s :: r.1, s.amplitude ^ 2 + r.2)
    else r

/-- The script's `aep_systematic_analysis` applied to its hard-coded
catalog: the included entries together with
`total_error = sqrt total_variance`. -/
noncomputable def aep_systematic_analysis : List Systematic × ℝ :=
  ((systematic_budget default_systematics).1,
    Real.sqrt ((systematic_budget default_systematics).2 : ℝ))

/-! ### Statistical validation (`aep_statistical_validation`) -/

/-- The chi-square of the AEP hypothesis: `(deviation / combined_error)²`. -/
noncomputable def chi2_aep (deviation combined_error : ℝ) : ℝ :=
  (deviation / combined_error) ^ 2

/-- The evidence of the AEP hypothesis:
`-0.5 * chi2_aep - penalty_aep` with `penalty_aep = 2.0`. -/
noncomputable def evidence_aep_of (deviation combined_error : ℝ) : ℝ :=
  -0.5 * chi2_aep deviation combined_error - 2

/-- The Bayes factor `exp(evidence_aep - evidence_null)` as a function of
the deviation, the combined error and the null evidence. -/
noncomputable def bayes_factor_of (deviation combined_error evidence_null : ℝ) : ℝ :=
  Real.exp (evidence_aep_of deviation combined_error - evidence_null)

/-- The compatibility in sigma computed in `run_aep_analysis`:
`abs(f_nl_estimate - f_NL_equil_pred) / combined_error`. -/
noncomputable def compatibility_of (f_nl_estimate combined_error : ℝ) : ℝ :=
  |f_nl_estimate - f_NL_equil_pred| / combined_error

/-- The validator `aep_statistical_validation`: combined error in
quadrature with the prediction uncertainty, deviation of the estimate from
the prediction, penalized chi-square evidences, Bayes factor and its
verbal classification.  Returns
`(bayes_factor, (strength, combined_error))`. -/
noncomputable def aep_statistical_validation (f_nl_estimate total_error : ℝ) :
    ℝ × String × ℝ :=
  let combined_error := Real.sqrt (total_error ^ 2 + f_NL_equil_uncertainty ^ 2)
  let deviation := |f_nl_estimate - f_NL_equil_pred|
  let chi2_null := (f_nl_estimate / total_error) ^ 2
  let evidence_null := -0.5 * chi2_null - 0
  let bayes_factor := bayes_factor_of deviation combined_error evidence_null
  let strength :=
    if bayes_factor > 10 then "Strong evidence for AEP"
    else if bayes_factor > 3 then "Substantial evidence for AEP"
    else "Inconclusive"
  (bayes_factor, strength, combined_error)

/-! ### Full pipeline (`run_aep_analysis`) -/

/-- The Result Summary dict returned by `run_aep_analysis`. -/
structure Summary where
  f_nl_estimate : ℝ
  total_error : ℝ
  compatibility : ℝ
  bayes_factor : ℝ
  conclusion : String

/-- The full pipeline `run_aep_analysis`, starting from stream state `s0`:
simulate, separate, estimate, assemble the systematic budget, validate,
and decide `VALIDATED` / `DISFAVORED`. -/
noncomputable def run_aep_analysis (next : ℕ → ℚ × ℕ) (s0 : ℕ) : Option Summary :=
  let sim := simulate_cmb_data next s0
  (aep_component_separation sim.1.1 sim.1.2).bind fun sep =>
    (aep_bispectrum_analysis next sep.1 sim.2).map fun bis =>
      let f_nl_estimate := bis.1.1
      let statistical_error := bis.1.2
      let systematic_error := aep_systematic_analysis.2
      let total_error := Real.sqrt (statistical_error ^ 2 + systematic_error ^ 2)
      let val := aep_statistical_validation f_nl_estimate total_error
      let bayes_factor := val.1
      let combined_error := val.2.2
      let compatibility := compatibility_of f_nl_estimate combined_error
      { f_nl_estimate := f_nl_estimate
        total_error := total_error
        compatibility := compatibility
        bayes_factor := bayes_factor
        conclusion :=
          if compatibility < 2 ∧ bayes_factor > 3 then "VALIDATED" else "DISFAVORED" }

/-- Constructing the analyzer and running the pipeline: `__init__` calls
`random.seed(42)`, so whatever the ambient generator state was before
construction, the run starts from the state determined by seed `42`
(`seedState 42`, where `seedState` maps a seed to the generator state it
produces). -/
noncomputable def analyzer_run (next : ℕ → ℚ × ℕ) (seedState : ℕ → ℕ)
    (ambient : ℕ) : Option Summary :=
  run_aep_analysis next (seedState 42)

/-! ## Theorems -/

/-! ### Systematic budget: C1, C2, C3 -/

/-- The included list is the in-order filter of the catalog by the
strict threshold test. -/
theorem systematic_budget_fst (l : List Systematic) :
    (systematic_budget l).1 =
      l.filter (fun s => decide (s.complexity / 300 < s.amplitude)) := by
  induction l with
  | nil => rfl
  | cons s rest ih =>
    by_cases h : s.complexity / 300 < s.amplitude
    · simp [systematic_budget, h, List.filter_cons, ih]
    · simp [systematic_budget, h, List.filter_cons, ih]

/-- The accumulated variance is the sum of the squared amplitudes of the
included entries. -/
theorem systematic_budget_snd (l : List Systematic) :
    (systematic_budget l).2 =
      (((systematic_budget l).1).map (fun s => s.amplitude ^ 2)).sum := by
  induction l with
  | nil => rfl
  | cons s rest ih =>
    by_cases h : s.complexity / 300 < s.amplitude
    · simp [systematic_budget, h, ih]
    · simp [systematic_budget, h, ih]

/-- C2: an entry is included in the budget iff its amplitude strictly
exceeds `complexity / 300`, and the returned total systematic error is the
square root of the sum of the squared amplitudes of exactly the included
entries. -/
theorem systematic_budget_spec (l : List Systematic) :
    (∀ s : Systematic,
        s ∈ (systematic_budget l).1 ↔
          s ∈ l ∧ s.complexity / 300 < s.amplitude) ∧
      Real.sqrt (((systematic_budget l).2 : ℚ) : ℝ) =
        Real.sqrt (((((systematic_budget l).1).map
          (fun s => s.amplitude ^ 2)).sum : ℚ) : ℝ) := by
  constructor
  · intro s
    rw [systematic_budget_fst]
    simp [List.mem_filter]
  · rw [systematic_budget_snd]

/-- On the hard-coded catalog every threshold test fails, so the budget is
empty with zero variance. -/
theorem systematic_budget_default_eval :
    systematic_budget default_systematics = ([], 0) := by
  norm_num [systematic_budget, default_systematics]

/-- C1 counterexample: on the hard-coded catalog the budget includes
nothing at all (in particular not `beam_asymmetry` and
`foreground_residual`), and the accumulated variance is `0`, so the total
systematic error is `sqrt 0 = 0`, not `≈ 0.0391`. -/
theorem systematic_budget_default_refutes :
    ((systematic_budget default_systematics).1.map Systematic.name ≠
        ["beam_asymmetry", "foreground_residual"]) ∧
      (systematic_budget default_systematics).2 = 0 := by
  rw [systematic_budget_default_eval]
  exact ⟨by simp, rfl⟩

/-- C1 amended: on the hard-coded catalog every amplitude is at most its
`complexity / 300` threshold, so the budget includes no entries and the
total systematic error is exactly `0`. -/
theorem systematic_budget_default_empty :
    (systematic_budget default_systematics).1.map Systematic.name = [] ∧
      Real.sqrt (((systematic_budget default_systematics).2 : ℚ) : ℝ) = 0 := by
  rw [systematic_budget_default_eval]
  simp

/-- C3: for the fixed catalog, no amplitude strictly exceeds its threshold,
so `aep_systematic_analysis` returns an empty included list and a total
systematic error of exactly `0.0`. -/
theorem aep_systematic_analysis_empty :
    aep_systematic_analysis = (([] : List Systematic), (0 : ℝ)) := by
  unfold aep_systematic_analysis
  rw [systematic_budget_default_eval]
  simp

/-! ### Component separation: C5, C6 -/

/-- Dividing every element of a list by a constant divides the sum. -/
theorem sum_map_div {α : Type} [DivisionRing α] (l : List α) (c : α) :
    (l.map fun x => x / c).sum = l.sum / c := by
  induction l with
  | nil => simp
  | cons a t ih => simp [ih, add_div]

/-- Reading a list back off by `getD` over the range of its length
reproduces the list. -/
theorem map_getD_range {α : Type} (l : List α) (d : α) :
    (List.range l.length).map (fun i => l.getD i d) = l := by
  induction l with
  | nil => simp
  | cons a t ih =>
    rw [List.length_cons, List.range_succ_eq_map, List.map_cons, List.map_map]
    simp only [Function.comp_def, Nat.succ_eq_add_one, List.getD_cons_zero,
      List.getD_cons_succ]
    rw [ih]

/-- Every inverse noise `1 / (nl + 0.1)` of a positive noise level is
positive. -/
theorem inverse_noise_pos (noise_levels : List ℚ)
    (hpos : ∀ x ∈ noise_levels, 0 < x) :
    ∀ y ∈ noise_levels.map (fun nl => 1 / (nl + 1 / 10)), 0 < y := by
  intro y hy
  rcases List.mem_map.mp hy with ⟨x, hx, rfl⟩
  have h1 : (0 : ℚ) < x + 1 / 10 := by have := hpos x hx; linarith
  exact one_div_pos.mpr h1

/-- C5: for every non-empty list of positive noise levels, the weight
vector of the separator sums to `1` within `1e-9` (in fact exactly), and
every individual weight is strictly positive. -/
theorem inverse_noise_weights_normalized (noise_levels : List ℚ)
    (hne : noise_levels ≠ []) (hpos : ∀ x ∈ noise_levels, 0 < x) :
    |(inverse_noise_weights noise_levels).sum - 1| ≤ 1 / 1000000000 ∧
      ∀ w ∈ inverse_noise_weights noise_levels, 0 < w := by
  have hinv := inverse_noise_pos noise_levels hpos
  have hmapne : noise_levels.map (fun nl => 1 / (nl + 1 / 10)) ≠ [] := by
    simp [List.map_eq_nil_iff, hne]
  have hsumpos : 0 < (noise_levels.map fun nl => 1 / (nl + 1 / 10)).sum :=
    List.sum_pos _ hinv hmapne
  constructor
  · have hsum : (inverse_noise_weights noise_levels).sum = 1 := by
      simp only [inverse_noise_weights]
      rw [sum_map_div, div_self (ne_of_gt hsumpos)]
    rw [hsum]
    norm_num
  · intro w hw
    simp only [inverse_noise_weights] at hw
    rcases List.mem_map.mp hw with ⟨y, hy, rfl⟩
    exact div_pos (hinv y hy) hsumpos

/-- C5 witness at the noise levels `[1, 1/2, 2]`. -/
theorem inverse_noise_weights_normalized_witness :
    ([(1 : ℚ), 1/2, 2] ≠ []) ∧ (∀ x ∈ [(1 : ℚ), 1/2, 2], 0 < x) ∧
      (|(inverse_noise_weights [(1 : ℚ), 1/2, 2]).sum - 1| ≤ 1 / 1000000000 ∧
        ∀ w ∈ inverse_noise_weights [(1 : ℚ), 1/2, 2], 0 < w) :=
  ⟨by simp, by norm_num,
    inverse_noise_weights_normalized [(1 : ℚ), 1/2, 2] (by simp) (by norm_num)⟩

/-- The separator's weights on `K` identical positive noise levels are `K`
copies of `1 / K`. -/
theorem inverse_noise_weights_replicate (K : ℕ) (n : ℚ)
    (hc : 1 / (n + 1 / 10) ≠ 0) :
    inverse_noise_weights (List.replicate K n) =
      List.replicate K (1 / (K : ℚ)) := by
  simp only [inverse_noise_weights, List.map_replicate, List.sum_replicate,
    nsmul_eq_mul]
  congr 1
  rw [mul_comm, div_mul_eq_div_div, div_self hc]

/-- C6: feeding the separator `k ≥ 1` identical channel maps equal to `m`,
each with the same positive noise level, reconstructs `m` exactly (the
weights are `k` copies of `1/k`). -/
theorem separation_identical_channels (k : ℕ) (m : List ℚ) (n : ℚ)
    (hk : 1 ≤ k) (hn : 0 < n) :
    ∃ w, aep_component_separation (List.replicate k m) (List.replicate k n) =
      some (m, w) := by
  obtain ⟨j, rfl⟩ : ∃ j, k = j + 1 := ⟨k - 1, by omega⟩
  have hc : (0 : ℚ) < 1 / (n + 1 / 10) := by
    have h1 : (0 : ℚ) < n + 1 / 10 := by linarith
    exact one_div_pos.mpr h1
  have hK : ((j + 1 : ℕ) : ℚ) ≠ 0 := Nat.cast_ne_zero.mpr (by omega)
  refine ⟨List.replicate (j + 1) (1 / ((j + 1 : ℕ) : ℚ)), ?_⟩
  rw [List.replicate_succ]
  simp only [aep_component_separation]
  rw [if_pos]
  · have hw : inverse_noise_weights
        ((List.replicate (j + 1) n).take (m :: List.replicate j m).length) =
        List.replicate (j + 1) (1 / ((j + 1 : ℕ) : ℚ)) := by
      rw [List.length_cons, List.length_replicate, List.take_replicate, min_self]
      exact inverse_noise_weights_replicate (j + 1) n (ne_of_gt hc)
    rw [hw, ← List.replicate_succ]
    simp only [Option.some.injEq, Prod.mk.injEq]
    refine ⟨?_, trivial⟩
    simp only [List.zip_replicate, min_self, List.map_replicate,
      List.sum_replicate, nsmul_eq_mul, ← mul_assoc,
      mul_one_div_cancel hK, one_mul]
    exact map_getD_range m 0
  · constructor
    · simp
    · intro f hf
      rcases List.mem_cons.mp hf with rfl | hf
      · exact le_refl _
      · rw [List.eq_of_mem_replicate hf]

/-- C6 witness with two copies of the map `[1, 2]` at noise level `1`. -/
theorem separation_identical_channels_witness :
    (1 ≤ 2) ∧ ((0 : ℚ) < 1) ∧
      ∃ w, aep_component_separation (List.replicate 2 [(1 : ℚ), 2])
        (List.replicate 2 (1 : ℚ)) = some ([(1 : ℚ), 2], w) :=
  ⟨by norm_num, by norm_num,
    separation_identical_channels 2 [(1 : ℚ), 2] 1 (by norm_num) (by norm_num)⟩

/-! ### Error behaviour on malformed input: C10 -/

/-- C10 counterexample: on channel maps of mismatched lengths
`[[1], [2, 3]]` the separator does not fail at all — it silently ignores
the second map's extra entry and returns a reconstructed map — and the
scorer on an empty catalog silently returns `None` instead of raising a
descriptive error. -/
theorem invalid_shape_not_failfast :
    aep_component_separation [[(1 : ℚ)], [2, 3]] [1, 1] =
        some ([3/2], [1/2, 1/2]) ∧
      aep_optimize_parameters [] = none := by
  constructor
  · norm_num [aep_component_separation, inverse_noise_weights, List.range_succ]
  · rfl

/-- C10 amended, the actual behaviour: an empty channel list makes the
separator raise (a generic IndexError, not a descriptive message); an
empty catalog makes the scorer silently return `None`; channel maps longer
than the first are silently truncated with no error; channel maps shorter
than the first make the separator raise a generic IndexError. -/
theorem invalid_shape_behavior :
    (∀ nl : List ℚ, aep_component_separation ([] : List (List ℚ)) nl = none) ∧
      aep_optimize_parameters [] = none ∧
      aep_component_separation [[(1 : ℚ)], [2, 3]] [1, 1] =
        some ([3/2], [1/2, 1/2]) ∧
      aep_component_separation [[(1 : ℚ), 2], [3]] [1, 1] = none := by
  refine ⟨fun nl => rfl, rfl, ?_, ?_⟩
  · norm_num [aep_component_separation, inverse_noise_weights, List.range_succ]
  · norm_num [aep_component_separation]

/-! ### Uniform source range: C4 -/

/-- C4 counterexample: the 53-bit draw `0` is a possible output of the
uniform source (`0 < 2⁵³`), and it makes the argument of the logarithm
exactly `0`, which is not in the open interval `(0, 1)` — `math.log(0.0)`
is a domain error. -/
theorem random_random_zero_possible :
    ((0 : ℕ) < 2 ^ 53) ∧ random_random 0 = 0 ∧
      ¬(0 < random_random 0 ∧ random_random 0 < 1) := by
  refine ⟨by norm_num, by norm_num [random_random], ?_⟩
  norm_num [random_random]

/-- C4 amended: the uniform source yields values in the half-open interval
`[0, 1)`, not the open interval; the argument of the logarithm is in
`(0, 1)` — so the Box–Muller computation avoids a numeric domain error —
exactly when the 53-bit draw is nonzero. -/
theorem random_random_range (k : ℕ) (hk : k < 2 ^ 53) :
    (0 ≤ random_random k ∧ random_random k < 1) ∧
      (0 < k → 0 < random_random k ∧ random_random k < 1) := by
  have h2 : (0 : ℚ) < 2 ^ 53 := by positivity
  have hlt : random_random k < 1 := by
    rw [random_random, div_lt_one h2]
    exact_mod_cast hk
  refine ⟨⟨?_, hlt⟩, fun hk0 => ⟨?_, hlt⟩⟩
  · exact div_nonneg (Nat.cast_nonneg k) (le_of_lt h2)
  · exact div_pos (by exact_mod_cast hk0) h2

/-- C4 amended witness at the draw `k = 1`. -/
theorem random_random_range_witness :
    ((1 : ℕ) < 2 ^ 53) ∧
      ((0 ≤ random_random 1 ∧ random_random 1 < 1) ∧
        (0 < 1 → 0 < random_random 1 ∧ random_random 1 < 1)) :=
  ⟨by norm_num, random_random_range 1 (by norm_num)⟩

/-! ### Monotonicity of the validation: C7 -/

/-- C7 counterexample: with the estimate equal to the prediction the
deviation is `0`, and increasing the combined error from `1` to `2` leaves
the reported compatibility at `0` — it does not strictly decrease. -/
theorem compatibility_not_strictly_decreasing :
    ((1 : ℝ) < 2) ∧ compatibility_of f_NL_equil_pred 1 = 0 ∧
      compatibility_of f_NL_equil_pred 2 = 0 ∧
      ¬(compatibility_of f_NL_equil_pred 2 < compatibility_of f_NL_equil_pred 1) := by
  have h1 : compatibility_of f_NL_equil_pred 1 = 0 := by
    simp [compatibility_of]
  have h2 : compatibility_of f_NL_equil_pred 2 = 0 := by
    simp [compatibility_of]
  exact ⟨by norm_num, h1, h2, by rw [h1, h2]; simp⟩

/-- C7 amended: when the estimate differs from the prediction (nonzero
deviation), strictly increasing the combined error strictly decreases the
reported compatibility in sigma, and strictly increases the Bayes factor
toward — while staying below — its zero-deviation value
`exp(-2 - evidence_null)`, the parity value at which the deviation no
longer distinguishes the AEP model from the null hypothesis (the null
evidence held fixed). -/
theorem validation_monotone_in_combined_error (est ce1 ce2 en : ℝ)
    (hne : est ≠ f_NL_equil_pred) (h1 : 0 < ce1) (h12 : ce1 < ce2) :
    compatibility_of est ce2 < compatibility_of est ce1 ∧
      bayes_factor_of |est - f_NL_equil_pred| ce1 en <
        bayes_factor_of |est - f_NL_equil_pred| ce2 en ∧
      bayes_factor_of |est - f_NL_equil_pred| ce2 en < bayes_factor_of 0 ce2 en ∧
      bayes_factor_of 0 ce2 en = Real.exp (-2 - en) := by
  have hd : 0 < |est - f_NL_equil_pred| := abs_pos.mpr (sub_ne_zero.mpr hne)
  have h2 : 0 < ce2 := lt_trans h1 h12
  have hdiv : |est - f_NL_equil_pred| / ce2 < |est - f_NL_equil_pred| / ce1 :=
    div_lt_div_of_pos_left hd h1 h12
  have hnn : 0 ≤ |est - f_NL_equil_pred| / ce2 := div_nonneg hd.le h2.le
  have hsq : (|est - f_NL_equil_pred| / ce2) ^ 2 <
      (|est - f_NL_equil_pred| / ce1) ^ 2 := by
    nlinarith [hdiv, hnn]
  have hpos2 : 0 < (|est - f_NL_equil_pred| / ce2) ^ 2 :=
    pow_pos (div_pos hd h2) 2
  refine ⟨?_, ?_, ?_, ?_⟩
  · simp only [compatibility_of]
    exact hdiv
  · apply Real.exp_lt_exp.mpr
    simp only [evidence_aep_of, chi2_aep]
    linarith
  · apply Real.exp_lt_exp.mpr
    simp only [evidence_aep_of, chi2_aep, zero_div]
    nlinarith
  · simp only [bayes_factor_of, evidence_aep_of, chi2_aep, zero_div]
    norm_num

/-- C7 amended witness at estimate `0.584`, combined errors `1 < 2`, null
evidence `0`. -/
theorem validation_monotone_witness :
    ((0.584 : ℝ) ≠ f_NL_equil_pred) ∧ ((0 : ℝ) < 1) ∧ ((1 : ℝ) < 2) ∧
      (compatibility_of 0.584 2 < compatibility_of 0.584 1 ∧
        bayes_factor_of |(0.584 : ℝ) - f_NL_equil_pred| 1 0 <
          bayes_factor_of |(0.584 : ℝ) - f_NL_equil_pred| 2 0 ∧
        bayes_factor_of |(0.584 : ℝ) - f_NL_equil_pred| 2 0 <
          bayes_factor_of 0 2 0 ∧
        bayes_factor_of 0 2 0 = Real.exp (-2 - 0)) :=
  ⟨by norm_num [f_NL_equil_pred], by norm_num, by norm_num,
    validation_monotone_in_combined_error 0.584 1 2 0
      (by norm_num [f_NL_equil_pred]) (by norm_num) (by norm_num)⟩

/-! ### Binning-option selection: C8 -/

/-- The score of an option that carries no `n_parameters` field: the
complexity term is `complexity * ln 1 = 0`, so the score degenerates to
`ln(n_modes) * 2 / 1e-6`. -/
theorem aep_score_no_nparams (nb c m : ℚ) :
    aep_score ⟨nb, some c, some m, none⟩ = Real.log ((m : ℝ)) * 2 / 1e-6 := by
  simp [aep_score, Real.log_one]

/-- Between two options without `n_parameters`, the one with the larger
(positive) mode count scores strictly higher. -/
theorem aep_score_lt (nb1 nb2 c1 c2 m1 m2 : ℚ) (h1 : 0 < m1) (h12 : m1 < m2) :
    aep_score ⟨nb1, some c1, some m1, none⟩ <
      aep_score ⟨nb2, some c2, some m2, none⟩ := by
  rw [aep_score_no_nparams, aep_score_no_nparams]
  have hlog : Real.log ((m1 : ℝ)) < Real.log ((m2 : ℝ)) :=
    Real.log_lt_log (by exact_mod_cast h1) (by exact_mod_cast h12)
  have h6 : (0 : ℝ) < 1e-6 := by norm_num
  rw [div_lt_div_iff₀ h6 h6]
  nlinarith [hlog]

/-- C8: on the fixed catalog — none of whose options carries an
`n_parameters` field, so every complexity term is `log 1 = 0` — the scorer
returns the 30-bin option with 900 modes, the option of maximal mode
count, and the statistical error computed from the selection is
`2 / sqrt 900 = 1/15`. -/
theorem aep_optimize_parameters_selects_30 :
    aep_optimize_parameters bin_options = some bin_option_30 ∧
      (aep_optimize_parameters bin_options).bind statistical_error_of =
        some (2 / Real.sqrt 900) ∧
      (2 / Real.sqrt 900 : ℝ) = 1 / 15 := by
  have h12 : aep_score bin_option_10 < aep_score bin_option_20 :=
    aep_score_lt 10 20 5 8 100 400 (by norm_num) (by norm_num)
  have h23 : aep_score bin_option_20 < aep_score bin_option_30 :=
    aep_score_lt 20 30 8 12 400 900 (by norm_num) (by norm_num)
  have h900 : Real.sqrt (900 : ℝ) = 30 := by
    rw [show (900 : ℝ) = 30 ^ 2 by norm_num, Real.sqrt_sq (by norm_num : (0:ℝ) ≤ 30)]
  have hsel : aep_optimize_parameters bin_options = some bin_option_30 := by
    unfold aep_optimize_parameters bin_options
    simp only [List.foldl_cons, List.foldl_nil]
    rw [if_pos h12]
    dsimp only []
    rw [if_pos h23]
    rfl
  refine ⟨hsel, ?_, ?_⟩
  · rw [hsel]
    norm_num [statistical_error_of, bin_option_30]
  · rw [h900]
    norm_num

/-! ### End-to-end determinism: C9 -/

/-- C9: the Result Summary is a deterministic function of the uniform
source and the seed.  Construction reseeds the generator to the state
`seedState 42`, so whatever the ambient generator state was before either
run, two runs of the full pipeline produce identical summaries. -/
theorem analyzer_run_deterministic (next : ℕ → ℚ × ℕ) (seedState : ℕ → ℕ)
    (ambient1 ambient2 : ℕ) :
    analyzer_run next seedState ambient1 = analyzer_run next seedState ambient2 := rfl

end AepCmb
